import Mathlib

/-
Verification of the HR-operations assistant core: role-based permission
policy, ownership predicate, tool bodies (authorization check, persistence
write, audit write), and the conversation resolution and
finalize-reconciliation (id normalization and dedup-keep-last).

The definitions below are a shallow embedding of the TypeScript source
(`src/lib/hr/tools.ts`, the rbac/audit modules, `src/app/api/chat/route.ts`).
Machine floats of the source are modelled as rationals; dates as integers;
database rows as lists of records.  Record fields that no property here
mentions (contact data, document URLs, timestamps) are omitted.
-/

deriving instance DecidableEq for Except

namespace LLMHR

/-! ## Permission policy (rbac module) -/

inductive Action where
  | create
  | read
  | update
  | delete
  | approve
deriving DecidableEq

inductive Entity where
  | employee
  | contract
  | letter
  | attendance
  | payroll
  | benefit
  | user
deriving DecidableEq

def actionName : Action → String
  | .create => "create"
  | .read => "read"
  | .update => "update"
  | .delete => "delete"
  | .approve => "approve"

def entityName : Entity → String
  | .employee => "employee"
  | .contract => "contract"
  | .letter => "letter"
  | .attendance => "attendance"
  | .payroll => "payroll"
  | .benefit => "benefit"
  | .user => "user"

def adminPerms : Entity → List Action
  | .employee => [.create, .read, .update, .delete]
  | .contract => [.create, .read, .update, .delete]
  | .letter => [.create, .read, .update, .delete]
  | .attendance => [.create, .read, .update, .delete, .approve]
  | .payroll => [.create, .read, .update, .delete, .approve]
  | .benefit => [.create, .read, .update, .delete]
  | .user => [.create, .read, .update, .delete]

def managerPerms : Entity → List Action
  | .employee => [.read, .update]
  | .contract => [.read, .update]
  | .letter => [.read, .update]
  | .attendance => [.read, .update, .approve]
  | .payroll => [.read, .update, .approve]
  | .benefit => [.read, .update]
  | .user => [.read]

def employeePerms : Entity → List Action
  | .employee => [.read]
  | .contract => [.read]
  | .letter => [.read]
  | .attendance => [.create, .read, .update]
  | .payroll => [.read]
  | .benefit => [.read]
  | .user => []

def financePerms : Entity → List Action
  | .employee => [.read]
  | .contract => [.read]
  | .letter => [.read]
  | .attendance => [.read]
  | .payroll => [.read, .update, .approve]
  | .benefit => [.read]
  | .user => []

/-- The `permissions` record of the rbac module: `role -> entity -> actions`;
an unknown role has no row (full denial). -/
def permissions (role : String) : Option (Entity → List Action) :=
  if role = "HR_Admin" then some adminPerms
  else if role = "HR_Manager" then some managerPerms
  else if role = "Employee" then some employeePerms
  else if role = "Finance" then some financePerms
  else none

def checkPermission (role : String) (action : Action) (entity : Entity) : Bool :=
  match permissions role with
  | none => false
  | some rolePermissions => (rolePermissions entity).contains action

/-- Ownership predicate `canAccessEmployee` of the rbac module: HR_Admin,
HR_Manager and Finance see every record; an Employee only their own;
any other role nothing. -/
def canAccessEmployee (role : String) (employeeId : String)
    (requestingUserId : Option String) : Bool :=
  if role = "HR_Admin" ∨ role = "HR_Manager" ∨ role = "Finance" then true
  else if role = "Employee" then
    match requestingUserId with
    | some uid => decide (employeeId = uid)
    | none => false
  else false

/-! ## Execution context carrier (module-level mutable slot in tools.ts) -/

structure ToolContext where
  userId : Option String
  role : String
deriving DecidableEq

/-- `setToolContext` overwrites the single module-level slot, whatever its
previous content. -/
def setToolContext (c : ToolContext) (_slot : Option ToolContext) :
    Option ToolContext :=
  some c

/-- `getToolContext` reads the single module-level slot, failing when unset. -/
def getToolContext (slot : Option ToolContext) : Except String ToolContext :=
  match slot with
  | some c => .ok c
  | none => .error "Tool context not set"

/-! ## Data model (relational rows touched by the claims) -/

structure Employee where
  id : String
  firstName : String
  lastName : String
  department : String
  salary : ℚ
  employmentStatus : String
deriving DecidableEq

structure Contract where
  id : String
  employeeId : String
  contractType : String
  startDate : Int
  endDate : Option Int
deriving DecidableEq

structure AttendanceRecord where
  id : String
  employeeId : String
  date : Int
  checkInTime : Option Int
  checkOutTime : Option Int
  hoursWorked : Option ℚ
  overtimeHours : Option ℚ
  leaveType : String
  leaveStatus : Option String
deriving DecidableEq

structure Benefit where
  id : String
  employeeId : String
  benefitType : String
  amount : ℚ
  startDate : Int
  endDate : Option Int
deriving DecidableEq

/-- A JSON value coerced by `Number(val) || 0`: either a numeric amount or a
non-numeric value contributing zero. -/
inductive JsonNum where
  | num (q : ℚ)
  | notNum
deriving DecidableEq

def numOrZero : JsonNum → ℚ
  | .num q => q
  | .notNum => 0

/-- The `deductions` tool argument: the raw JSON string together with the
outcome of `JSON.parse` (`none` when parsing throws). -/
structure DeductionsInput where
  raw : String
  parsed : Option (List (String × JsonNum))
deriving DecidableEq

structure Payroll where
  id : String
  employeeId : String
  periodStart : Int
  periodEnd : Int
  baseSalary : ℚ
  overtimePay : ℚ
  deductions : Option String
  netSalary : ℚ
  status : String
deriving DecidableEq

structure AuditEntry where
  entityType : String
  entityId : String
  action : String
  performedBy : Option String
  details : Option String
deriving DecidableEq

structure DB where
  employees : List Employee
  contracts : List Contract
  attendance : List AttendanceRecord
  benefits : List Benefit
  payrolls : List Payroll
  audit : List AuditEntry
  nextId : Nat
deriving DecidableEq

def findEmployee (db : DB) (employeeId : String) : Option Employee :=
  db.employees.find? (fun e => e.id = employeeId)

def findContract (db : DB) (contractId : String) : Option Contract :=
  db.contracts.find? (fun c => c.id = contractId)

def replaceEmployee (db : DB) (e : Employee) : DB :=
  ⟨db.employees.map (fun x => if x.id = e.id then e else x), db.contracts,
    db.attendance, db.benefits, db.payrolls, db.audit, db.nextId⟩

def replaceContract (db : DB) (c : Contract) : DB :=
  ⟨db.employees, db.contracts.map (fun x => if x.id = c.id then c else x),
    db.attendance, db.benefits, db.payrolls, db.audit, db.nextId⟩

def addAttendance (db : DB) (r : AttendanceRecord) : DB :=
  ⟨db.employees, db.contracts, db.attendance ++ [r], db.benefits, db.payrolls,
    db.audit, db.nextId⟩

def addPayroll (db : DB) (p : Payroll) : DB :=
  ⟨db.employees, db.contracts, db.attendance, db.benefits, db.payrolls ++ [p],
    db.audit, db.nextId⟩

/-- Audit recorder `logAction`: appends one entry; its failures are swallowed
by the source (best-effort), so the success path is the appended log. -/
def logAction (db : DB) (entityType entityId action : String)
    (performedBy : Option String) (details : Option String) : DB :=
  ⟨db.employees, db.contracts, db.attendance, db.benefits, db.payrolls,
    db.audit ++ [⟨entityType, entityId, action, performedBy, details⟩],
    db.nextId⟩

def freshRecordId (db : DB) : String :=
  "rec-" ++ toString db.nextId

def bumpId (db : DB) : DB :=
  ⟨db.employees, db.contracts, db.attendance, db.benefits, db.payrolls,
    db.audit, db.nextId + 1⟩

/-! ## Errors -/

inductive ToolError where
  | unauthorized (msg : String)
  | notFound (msg : String)
deriving DecidableEq

/-- Message thrown by `requirePermission` on an action-level denial. -/
def unauthorizedMsg (role : String) (a : Action) (e : Entity) : String :=
  "Unauthorized: " ++ (role ++ (" cannot " ++ (actionName a ++ (" " ++ entityName e))))

/-- Message thrown on an ownership-level denial. -/
def ownershipDeniedMsg : String :=
  "Unauthorized: Cannot access this employee record"

/-! Substring test used to state that an error message names an action or an
entity (character-list level, so that it reduces by `decide`). -/

def chStarts : List Char → List Char → Bool
  | _, [] => true
  | [], _ :: _ => false
  | c :: cs, d :: ds => (c == d) && chStarts cs ds

def chSub : List Char → List Char → Bool
  | [], needle => needle.isEmpty
  | h :: t, needle => chStarts (h :: t) needle || chSub t needle

def strHas (hay needle : String) : Bool :=
  chSub hay.toList needle.toList

/-! ## Tool bodies (tools.ts)

Each tool is a function from context, input and database to either an
error paired with the database at the moment of the throw, or a result
paired with the database after the persistence and audit writes.  The
statement order of the source bodies is preserved: `requirePermission`
first, then (where present) `canAccessEmployee`, then the persistence
call, then `logAction`. -/

structure UpdateEmployeeInput where
  employeeId : String
  firstName : Option String
  lastName : Option String
  department : Option String
  salary : Option ℚ
  employmentStatus : Option String
deriving DecidableEq

def applyEmpUpdate (emp : Employee) (input : UpdateEmployeeInput) : Employee :=
  ⟨emp.id, input.firstName.getD emp.firstName, input.lastName.getD emp.lastName,
    input.department.getD emp.department, input.salary.getD emp.salary,
    input.employmentStatus.getD emp.employmentStatus⟩

def updateEmployee (ctx : ToolContext) (input : UpdateEmployeeInput) (db : DB) :
    Except (ToolError × DB) (Employee × DB) :=
  if checkPermission ctx.role .update .employee = true then
    if canAccessEmployee ctx.role input.employeeId ctx.userId = true then
      match findEmployee db input.employeeId with
      | none => .error (.notFound "Record to update not found", db)
      | some emp =>
        let emp1 := applyEmpUpdate emp input
        let db1 := replaceEmployee db emp1
        let db2 := logAction db1 "Employee" emp1.id "Update" ctx.userId (some "input")
        .ok (emp1, db2)
    else .error (.unauthorized ownershipDeniedMsg, db)
  else .error (.unauthorized (unauthorizedMsg ctx.role .update .employee), db)

structure GetEmployeeInput where
  employeeId : Option String
  name : Option String
  department : Option String
  limit : Nat
deriving DecidableEq

inductive GetEmployeeResult where
  | found (e : Employee)
  | foundMany (es : List Employee)
  | missing
deriving DecidableEq

def strHasCI (hay needle : String) : Bool :=
  chSub hay.toLower.toList needle.toLower.toList

def empMatchesSearch (input : GetEmployeeInput) (e : Employee) : Bool :=
  (match input.name with
   | some n => strHasCI e.firstName n || strHasCI e.lastName n
   | none => true) &&
  (match input.department with
   | some d => strHasCI e.department d
   | none => true)

/-- Search branch of `getEmployee` (already past the action-level check):
query filter, result cap, then the per-record ownership filter. -/
def getEmployeeSearch (ctx : ToolContext) (input : GetEmployeeInput) (db : DB) :
    Except (ToolError × DB) (GetEmployeeResult × DB) :=
  let rows := (db.employees.filter (empMatchesSearch input)).take input.limit
  .ok (.foundMany (rows.filter (fun e => canAccessEmployee ctx.role e.id ctx.userId)), db)

def getEmployee (ctx : ToolContext) (input : GetEmployeeInput) (db : DB) :
    Except (ToolError × DB) (GetEmployeeResult × DB) :=
  if checkPermission ctx.role .read .employee = true then
    match input.employeeId with
    | some eid =>
      if eid = "" then getEmployeeSearch ctx input db
      else
        match findEmployee db eid with
        | none => .ok (.missing, db)
        | some emp =>
          if canAccessEmployee ctx.role emp.id ctx.userId = true then
            .ok (.found emp, logAction db "Employee" emp.id "Read" ctx.userId none)
          else .error (.unauthorized ownershipDeniedMsg, db)
    | none => getEmployeeSearch ctx input db
  else .error (.unauthorized (unauthorizedMsg ctx.role .read .employee), db)

def archiveEmployee (ctx : ToolContext) (employeeId : String) (db : DB) :
    Except (ToolError × DB) (Employee × DB) :=
  if checkPermission ctx.role .update .employee = true then
    match findEmployee db employeeId with
    | none => .error (.notFound "Record to update not found", db)
    | some emp =>
      let emp1 : Employee :=
        ⟨emp.id, emp.firstName, emp.lastName, emp.department, emp.salary, "Archived"⟩
      let db1 := replaceEmployee db emp1
      let db2 := logAction db1 "Employee" emp1.id "Update" ctx.userId (some "archived")
      .ok (emp1, db2)
  else .error (.unauthorized (unauthorizedMsg ctx.role .update .employee), db)

def reactivateEmployee (ctx : ToolContext) (employeeId : String) (db : DB) :
    Except (ToolError × DB) (Employee × DB) :=
  if checkPermission ctx.role .update .employee = true then
    match findEmployee db employeeId with
    | none => .error (.notFound "Record to update not found", db)
    | some emp =>
      let emp1 : Employee :=
        ⟨emp.id, emp.firstName, emp.lastName, emp.department, emp.salary, "Active"⟩
      let db1 := replaceEmployee db emp1
      let db2 := logAction db1 "Employee" emp1.id "Update" ctx.userId (some "reactivated")
      .ok (emp1, db2)
  else .error (.unauthorized (unauthorizedMsg ctx.role .update .employee), db)

structure TerminateContractInput where
  contractId : String
  terminationDate : Int
deriving DecidableEq

def terminateContract (ctx : ToolContext) (input : TerminateContractInput) (db : DB) :
    Except (ToolError × DB) (Contract × DB) :=
  if checkPermission ctx.role .update .contract = true then
    match findContract db input.contractId with
    | none => .error (.notFound "Record to update not found", db)
    | some c =>
      let c1 : Contract :=
        ⟨c.id, c.employeeId, c.contractType, c.startDate, some input.terminationDate⟩
      let db1 := replaceContract db c1
      let db2 := logAction db1 "Contract" c1.id "Update" ctx.userId (some "terminated")
      .ok (c1, db2)
  else .error (.unauthorized (unauthorizedMsg ctx.role .update .contract), db)

structure GetContractInput where
  employeeId : Option String
  contractId : Option String
deriving DecidableEq

inductive GetContractResult where
  | one (c : Contract)
  | many (cs : List Contract)
  | missing
  | badInput
deriving DecidableEq

/-- `getContract`: note the absence of any ownership filtering and of any
audit write on its read paths, exactly as in the source. -/
def getContract (ctx : ToolContext) (input : GetContractInput) (db : DB) :
    Except (ToolError × DB) (GetContractResult × DB) :=
  if checkPermission ctx.role .read .contract = true then
    match input.contractId with
    | some cid =>
      if cid = "" then
        match input.employeeId with
        | some eid =>
          if eid = "" then .ok (.badInput, db)
          else .ok (.many (db.contracts.filter (fun c => c.employeeId = eid)), db)
        | none => .ok (.badInput, db)
      else
        match findContract db cid with
        | some c => .ok (.one c, db)
        | none => .ok (.missing, db)
    | none =>
      match input.employeeId with
      | some eid =>
        if eid = "" then .ok (.badInput, db)
        else .ok (.many (db.contracts.filter (fun c => c.employeeId = eid)), db)
      | none => .ok (.badInput, db)
  else .error (.unauthorized (unauthorizedMsg ctx.role .read .contract), db)

/-- `getBenefits`: returns every benefit row of the requested employee with
no per-record ownership filter, exactly as in the source. -/
def getBenefits (ctx : ToolContext) (employeeId : String) (db : DB) :
    Except (ToolError × DB) (List Benefit × DB) :=
  if checkPermission ctx.role .read .benefit = true then
    .ok (db.benefits.filter (fun b => b.employeeId = employeeId), db)
  else .error (.unauthorized (unauthorizedMsg ctx.role .read .benefit), db)

structure RecordAttendanceInput where
  employeeId : String
  date : Int
  checkInTime : Option Int
  checkOutTime : Option Int
  hoursWorked : Option ℚ
  overtimeHours : Option ℚ
  leaveType : Option String
deriving DecidableEq

/-- JavaScript `x || null` on an optional number: `0` is falsy and becomes null. -/
def jsOrNone (x : Option ℚ) : Option ℚ :=
  match x with
  | some v => if v = 0 then none else some v
  | none => none

/-- JavaScript `x || 0` on an optional number. -/
def jsOrZero (x : Option ℚ) : ℚ :=
  match x with
  | some v => v
  | none => 0

/-- The row created by `recordAttendance`: note the JavaScript falsiness
defaults of the source (`hoursWorked || null`, `overtimeHours || 0`,
`leaveType || "None"`). -/
def attendanceRow (input : RecordAttendanceInput) (db : DB) : AttendanceRecord :=
  ⟨freshRecordId db, input.employeeId, input.date, input.checkInTime,
    input.checkOutTime, jsOrNone input.hoursWorked,
    some (jsOrZero input.overtimeHours), input.leaveType.getD "None", none⟩

def recordAttendance (ctx : ToolContext) (input : RecordAttendanceInput) (db : DB) :
    Except (ToolError × DB) (AttendanceRecord × DB) :=
  if checkPermission ctx.role .create .attendance = true then
    let r := attendanceRow input db
    let db1 := addAttendance (bumpId db) r
    let db2 := logAction db1 "AttendanceRecord" r.id "Create" ctx.userId (some "input")
    .ok (r, db2)
  else .error (.unauthorized (unauthorizedMsg ctx.role .create .attendance), db)

structure RequestLeaveInput where
  employeeId : String
  date : Int
  leaveType : String
deriving DecidableEq

/-- The row created by `requestLeave`: an attendance record holding only the
leave type, with status `Requested`. -/
def leaveRow (input : RequestLeaveInput) (db : DB) : AttendanceRecord :=
  ⟨freshRecordId db, input.employeeId, input.date, none, none, none, none,
    input.leaveType, some "Requested"⟩

def requestLeave (ctx : ToolContext) (input : RequestLeaveInput) (db : DB) :
    Except (ToolError × DB) (AttendanceRecord × DB) :=
  if checkPermission ctx.role .create .attendance = true then
    let r := leaveRow input db
    let db1 := addAttendance (bumpId db) r
    let db2 := logAction db1 "AttendanceRecord" r.id "Create" ctx.userId (some "input")
    .ok (r, db2)
  else .error (.unauthorized (unauthorizedMsg ctx.role .create .attendance), db)

structure CalcPayrollInput where
  employeeId : String
  periodStart : Int
  periodEnd : Int
  deductions : Option DeductionsInput
deriving DecidableEq

def payrollRangeFilter (input : CalcPayrollInput) (r : AttendanceRecord) : Bool :=
  decide (r.employeeId = input.employeeId) &&
  decide (input.periodStart ≤ r.date) && decide (r.date ≤ input.periodEnd)

/-- `Object.values(deductionsObj).reduce((sum, val) => sum + (Number(val) || 0), 0)`,
with an absent or unparseable payload treated as the empty object. -/
def totalDeductionsOf : Option DeductionsInput → ℚ
  | none => 0
  | some d =>
    match d.parsed with
    | none => 0
    | some entries => entries.foldl (fun s p => s + numOrZero p.2) 0

def rawDeductions : Option DeductionsInput → Option String
  | none => none
  | some d => some d.raw

def deductionsParseFailed : Option DeductionsInput → Bool
  | none => false
  | some d => d.parsed.isNone

/-- The payroll row built by `calculatePayroll` past its checks: overtime
summed from the attendance rows of the period, overtime pay at `base/160`
per hour times `1.5`, net as base plus overtime minus deductions. -/
def payrollResult (input : CalcPayrollInput) (db : DB) (emp : Employee) : Payroll :=
  let records := db.attendance.filter (payrollRangeFilter input)
  let totalOvertimeHours := records.foldl (fun s r => s + (r.overtimeHours.getD 0)) 0
  let overtimePay := totalOvertimeHours * (emp.salary / 160) * (3 / 2)
  let totalDeductions := totalDeductionsOf input.deductions
  let netSalary := emp.salary + overtimePay - totalDeductions
  ⟨freshRecordId db, input.employeeId, input.periodStart, input.periodEnd,
    emp.salary, overtimePay, rawDeductions input.deductions, netSalary,
    "Calculated"⟩

def calculatePayroll (ctx : ToolContext) (input : CalcPayrollInput) (db : DB) :
    Except (ToolError × DB) (Payroll × DB) :=
  if checkPermission ctx.role .create .payroll = true then
    match findEmployee db input.employeeId with
    | none => .error (.notFound "Employee not found", db)
    | some emp =>
      let p := payrollResult input db emp
      let db1 := addPayroll (bumpId db) p
      let db2 := logAction db1 "Payroll" p.id "Create" ctx.userId (some "input")
      .ok (p, db2)
  else .error (.unauthorized (unauthorizedMsg ctx.role .create .payroll), db)

/-! ## Chat route (route.ts): finalize reconciliation and conversation resolve -/

structure Msg where
  id : String
  role : String
  content : String
deriving DecidableEq

/-- Id normalization of `onFinish`: an empty id is replaced by the next value
drawn from the id source (`crypto.randomUUID` in the source, modelled as the
stream `gen` of its successive return values, `k` the number already drawn). -/
def normalizeIds (gen : Nat → String) : List Msg → Nat → List Msg
  | [], _ => []
  | m :: rest, k =>
    if m.id = "" then ⟨gen k, m.role, m.content⟩ :: normalizeIds gen rest (k + 1)
    else m :: normalizeIds gen rest k

/-- The dedup loop of `onFinish`: `i` runs from the end of the array to the
front (here: left-to-right over the reversed list), a first-seen id is added
to `seen` and its message is `unshift`ed onto the accumulator. -/
def dedupLoop : List Msg → List String → List Msg → List Msg
  | [], _, acc => acc
  | m :: rest, seen, acc =>
    if m.id ∈ seen then dedupLoop rest seen acc
    else dedupLoop rest (m.id :: seen) (m :: acc)

def dedupKeepLast (ms : List Msg) : List Msg :=
  dedupLoop ms.reverse [] []

/-- Left-to-right first-occurrence filter with an explicit seen set;
functional reading of the dedup loop. -/
def ffs : List Msg → List String → List Msg
  | [], _ => []
  | m :: rest, seen =>
    if m.id ∈ seen then ffs rest seen
    else m :: ffs rest (m.id :: seen)

def collectIds : List Msg → List String → List String
  | [], seen => seen
  | m :: rest, seen =>
    if m.id ∈ seen then collectIds rest seen
    else collectIds rest (m.id :: seen)

/-- Specification-side reading of reconciliation, in the words of the spec: keep
the last occurrence in arrival order of each id, drop earlier duplicates,
preserve the resulting relative order. -/
def keepLastSpec : List Msg → List Msg
  | [] => []
  | m :: rest =>
    if rest.any (fun x => x.id == m.id) then keepLastSpec rest
    else m :: keepLastSpec rest

/-- Modelled from the spec: the Conversation Store (`loadChat`, `createChat`,
`saveChat` of `@/lib/db`) is not under `src/`; §4.4 gives its contract:
`Create` makes a fresh conversation id, `Load` fails with NotFound when the
id is absent. -/
structure ChatStore where
  chats : List (String × List Msg)
  nextId : Nat
deriving DecidableEq

/-- Modelled from the spec: `Load(conversationId)` returns the stored ordered
message sequence, failing when the id does not resolve. -/
def loadChat (chatId : String) (st : ChatStore) : Except Unit (List Msg) :=
  match st.chats.find? (fun p => p.1 = chatId) with
  | some p => .ok p.2
  | none => .error ()

/-- Modelled from the spec: `Create()` makes a new empty conversation under a
freshly generated identifier. -/
def createChat (st : ChatStore) : String × ChatStore :=
  ("chat-" ++ toString st.nextId,
    ⟨st.chats ++ [("chat-" ++ toString st.nextId, [])], st.nextId + 1⟩)

structure ResolveOutcome where
  currentChatId : String
  isNewChat : Bool
  store : ChatStore
deriving DecidableEq

/-- Conversation resolution of the POST handler: no id ⇒ create; id that
loads ⇒ reuse; id whose load fails ⇒ create a new one instead of failing. -/
def resolveChat : Option String → ChatStore → ResolveOutcome
  | none, st =>
    let c := createChat st
    ⟨c.1, true, c.2⟩
  | some cid, st =>
    match loadChat cid st with
    | .ok _ => ⟨cid, false, st⟩
    | .error _ =>
      let c := createChat st
      ⟨c.1, true, c.2⟩

/-- The `X-Chat-Id` response header: set exactly when the chat was newly
created. -/
def chatIdHeader (r : ResolveOutcome) : Option String :=
  if r.isNewChat = true then some r.currentChatId else none

/-! ## Concrete fixtures used by witnesses and counterexamples -/

def emp1 : Employee := ⟨"E1", "Alice", "One", "Engineering", 1000, "Active"⟩

def emp2 : Employee := ⟨"E2", "Bob", "Two", "Engineering", 1200, "Active"⟩

def con2 : Contract := ⟨"C2", "E2", "Permanent", 0, none⟩

def ben2 : Benefit := ⟨"B2", "E2", "Insurance", 50, 0, none⟩

def db3 : DB := ⟨[emp1, emp2], [con2], [], [ben2], [], [], 0⟩

def ctxEmpE1 : ToolContext := ⟨some "E1", "Employee"⟩

def ctxAdmin : ToolContext := ⟨some "A0", "HR_Admin"⟩

def empPay : Employee := ⟨"E1", "Alice", "One", "Engineering", 1600, "Active"⟩

def attnPay : List AttendanceRecord :=
  [⟨"A1", "E1", 5, none, none, none, some 4, "None", none⟩,
   ⟨"A2", "E1", 10, none, none, none, some 6, "None", none⟩,
   ⟨"A3", "E1", 50, none, none, none, some 100, "None", none⟩,
   ⟨"A4", "E2", 5, none, none, none, some 3, "None", none⟩]

def db9 : DB := ⟨[empPay], [], attnPay, [], [], [], 7⟩

def calcInput9 : CalcPayrollInput :=
  ⟨"E1", 0, 20, some ⟨"tax=50", some [("tax", JsonNum.num 50)]⟩⟩

def calcInputBad : CalcPayrollInput :=
  ⟨"E1", 0, 20, some ⟨"not json", none⟩⟩

/-! ## Helper lemmas -/

lemma dedupLoop_eq (l : List Msg) :
    ∀ seen acc, dedupLoop l seen acc = (ffs l seen).reverse ++ acc := by
  induction l with
  | nil => intro seen acc; simp [dedupLoop, ffs]
  | cons m rest ih =>
    intro seen acc
    by_cases h : m.id ∈ seen
    · simp [dedupLoop, ffs, h, ih]
    · simp [dedupLoop, ffs, h, ih]

lemma mem_collectIds (l : List Msg) :
    ∀ seen x, x ∈ collectIds l seen ↔ x ∈ seen ∨ x ∈ l.map Msg.id := by
  induction l with
  | nil => intro seen x; simp [collectIds]
  | cons m rest ih =>
    intro seen x
    by_cases h : m.id ∈ seen
    · simp only [collectIds, if_pos h, ih, List.map_cons, List.mem_cons]
      constructor
      · rintro (hx | hx)
        · exact Or.inl hx
        · exact Or.inr (Or.inr hx)
      · rintro (hx | hx | hx)
        · exact Or.inl hx
        · exact Or.inl (hx ▸ h)
        · exact Or.inr hx
    · simp only [collectIds, if_neg h, ih, List.map_cons, List.mem_cons]
      tauto

lemma ffs_append (a : List Msg) :
    ∀ b seen, ffs (a ++ b) seen = ffs a seen ++ ffs b (collectIds a seen) := by
  induction a with
  | nil => intro b seen; simp [ffs, collectIds]
  | cons m rest ih =>
    intro b seen
    by_cases h : m.id ∈ seen
    · simp [ffs, collectIds, h, ih]
    · simp [ffs, collectIds, h, ih]

lemma ffs_all_seen (l : List Msg) :
    ∀ seen, (∀ m ∈ l, m.id ∈ seen) → ffs l seen = [] := by
  induction l with
  | nil => intro seen _; rfl
  | cons m rest ih =>
    intro seen h
    have hm : m.id ∈ seen := h m (List.mem_cons_self m rest)
    simp only [ffs, if_pos hm]
    exact ih seen (fun x hx => h x (List.mem_cons_of_mem m hx))

lemma ffs_reverse_eq_keepLastSpec (xs : List Msg) :
    ffs xs.reverse [] = (keepLastSpec xs).reverse := by
  induction xs with
  | nil => rfl
  | cons m rest ih =>
    rw [List.reverse_cons, ffs_append, ih]
    by_cases h : m.id ∈ rest.map Msg.id
    · have hseen : m.id ∈ collectIds rest.reverse [] := by
        rw [mem_collectIds]
        refine Or.inr ?_
        simpa using h
      have h1 : ffs [m] (collectIds rest.reverse []) = [] := by
        simp [ffs, hseen]
      have hany : rest.any (fun x => x.id == m.id) = true := by
        rw [List.any_eq_true]
        obtain ⟨x, hx, hid⟩ := List.mem_map.mp h
        exact ⟨x, hx, by simp [hid]⟩
      have h2 : keepLastSpec (m :: rest) = keepLastSpec rest := by
        simp [keepLastSpec, hany]
      rw [h1, h2, List.append_nil]
    · have hseen : m.id ∉ collectIds rest.reverse [] := by
        rw [mem_collectIds]
        push_neg
        constructor
        · simp
        · simpa using h
      have h1 : ffs [m] (collectIds rest.reverse []) = [m] := by
        simp [ffs, hseen]
      have hany : rest.any (fun x => x.id == m.id) = false := by
        rw [List.any_eq_false]
        intro x hx
        simp only [beq_iff_eq]
        intro hid
        exact h (List.mem_map.mpr ⟨x, hx, hid⟩)
      have h2 : keepLastSpec (m :: rest) = m :: keepLastSpec rest := by
        simp [keepLastSpec, hany]
      rw [h1, h2, List.reverse_cons]

lemma dedupKeepLast_eq_keepLastSpec (xs : List Msg) :
    dedupKeepLast xs = keepLastSpec xs := by
  unfold dedupKeepLast
  rw [dedupLoop_eq, ffs_reverse_eq_keepLastSpec]
  simp

lemma keepLastSpec_sublist (xs : List Msg) : (keepLastSpec xs).Sublist xs := by
  induction xs with
  | nil => exact List.Sublist.refl []
  | cons m rest ih =>
    by_cases h : rest.any (fun x => x.id == m.id) = true
    · simpa [keepLastSpec, h] using ih.cons m
    · simp only [keepLastSpec, h, if_neg, Bool.not_eq_true] at *
      simpa [h] using ih.cons₂ m

lemma dedupKeepLast_sublist (xs : List Msg) : (dedupKeepLast xs).Sublist xs := by
  rw [dedupKeepLast_eq_keepLastSpec]
  exact keepLastSpec_sublist xs

lemma normalizeIds_nonempty (gen : Nat → String) (hgen : ∀ n, gen n ≠ "") :
    ∀ (ms : List Msg) (k : Nat) (m : Msg), m ∈ normalizeIds gen ms k → m.id ≠ "" := by
  intro ms
  induction ms with
  | nil => intro k m hm; simp [normalizeIds] at hm
  | cons x rest ih =>
    intro k m hm
    by_cases h : x.id = ""
    · simp only [normalizeIds, if_pos h, List.mem_cons] at hm
      rcases hm with hm | hm
      · rw [hm]
        exact hgen k
      · exact ih (k + 1) m hm
    · simp only [normalizeIds, if_neg h, List.mem_cons] at hm
      rcases hm with hm | hm
      · rw [hm]; exact h
      · exact ih k m hm

lemma foldl_add_eq {α : Type} (f : α → ℚ) :
    ∀ (l : List α) (init : ℚ),
      l.foldl (fun s x => s + f x) init = init + (l.map f).sum := by
  intro l
  induction l with
  | nil => intro init; simp
  | cons a t ih =>
    intro init
    simp only [List.foldl_cons, List.map_cons, List.sum_cons, ih]
    ring

lemma toList_append (a b : String) : (a ++ b).toList = a.toList ++ b.toList := by
  cases a; cases b; rfl

lemma chStarts_self_append : ∀ (n t : List Char), chStarts (n ++ t) n = true := by
  intro n
  induction n with
  | nil => intro t; cases t <;> rfl
  | cons c cs ih => intro t; simp [chStarts, ih]

lemma chStarts_self (n : List Char) : chStarts n n = true := by
  have h := chStarts_self_append n []
  simpa using h

lemma chSub_of_chStarts : ∀ (hay n : List Char), chStarts hay n = true → chSub hay n = true := by
  intro hay n h
  cases hay with
  | nil =>
    cases n with
    | nil => rfl
    | cons d ds => exact absurd h (by simp [chStarts])
  | cons c cs => simp [chSub, h]

lemma chSub_append_right : ∀ (a b n : List Char), chSub b n = true → chSub (a ++ b) n = true := by
  intro a
  induction a with
  | nil => intro b n h; simpa using h
  | cons c cs ih =>
    intro b n h
    simp only [List.cons_append, chSub, Bool.or_eq_true]
    exact Or.inr (ih b n h)

lemma strHas_append_right (a b n : String) (h : strHas b n = true) :
    strHas (a ++ b) n = true := by
  unfold strHas at *
  rw [toList_append]
  exact chSub_append_right _ _ _ h

lemma strHas_append_self (n t : String) : strHas (n ++ t) n = true := by
  unfold strHas
  rw [toList_append]
  exact chSub_of_chStarts _ _ (chStarts_self_append _ _)

lemma strHas_self (s : String) : strHas s s = true :=
  chSub_of_chStarts _ _ (chStarts_self s.toList)

lemma unauthorizedMsg_names_action (role : String) (a : Action) (e : Entity) :
    strHas (unauthorizedMsg role a e) (actionName a) = true := by
  unfold unauthorizedMsg
  apply strHas_append_right
  apply strHas_append_right
  apply strHas_append_right
  exact strHas_append_self _ _

lemma unauthorizedMsg_names_entity (role : String) (a : Action) (e : Entity) :
    strHas (unauthorizedMsg role a e) (entityName e) = true := by
  unfold unauthorizedMsg
  apply strHas_append_right
  apply strHas_append_right
  apply strHas_append_right
  apply strHas_append_right
  apply strHas_append_right
  exact strHas_self _

lemma foldl_overtime_eq (l : List AttendanceRecord) :
    l.foldl (fun s r => s + (r.overtimeHours.getD 0)) 0 =
      (l.map (fun r => r.overtimeHours.getD 0)).sum := by
  simpa using foldl_add_eq (fun r => (r.overtimeHours.getD 0)) l 0

lemma payrollResult_overtimePay (input : CalcPayrollInput) (db : DB) (emp : Employee) :
    (payrollResult input db emp).overtimePay =
      ((db.attendance.filter (payrollRangeFilter input)).map
          (fun r => r.overtimeHours.getD 0)).sum * (emp.salary / 160) * (3 / 2) := by
  show (db.attendance.filter (payrollRangeFilter input)).foldl
      (fun s r => s + (r.overtimeHours.getD 0)) 0 * (emp.salary / 160) * (3 / 2) = _
  rw [foldl_overtime_eq]

lemma calculatePayroll_eval (ctx : ToolContext) (input : CalcPayrollInput)
    (db : DB) (emp : Employee)
    (hp : checkPermission ctx.role Action.create Entity.payroll = true)
    (hfind : findEmployee db input.employeeId = some emp) :
    calculatePayroll ctx input db =
      .ok (payrollResult input db emp,
        logAction (addPayroll (bumpId db) (payrollResult input db emp)) "Payroll"
          (payrollResult input db emp).id "Create" ctx.userId (some "input")) := by
  unfold calculatePayroll
  rw [if_pos hp, hfind]

/-- A caller failing the ownership predicate on any record also fails the
action-level check for updates on employees and contracts: only HR_Admin and
HR_Manager hold those update actions, and both pass the ownership predicate
unconditionally. -/
lemma noOwnership_noUpdate (role owner : String) (uid : Option String)
    (h : canAccessEmployee role owner uid = false) :
    checkPermission role Action.update Entity.employee = false ∧
      checkPermission role Action.update Entity.contract = false := by
  by_cases h1 : role = "HR_Admin"
  · subst h1; simp [canAccessEmployee] at h
  by_cases h2 : role = "HR_Manager"
  · subst h2; simp [canAccessEmployee] at h
  by_cases h3 : role = "Finance"
  · subst h3; simp [canAccessEmployee] at h
  by_cases h4 : role = "Employee"
  · subst h4; exact ⟨by decide, by decide⟩
  · constructor <;> simp [checkPermission, permissions, h1, h2, h3, h4]

/-! ## Claims -/

/-- Claim C1, counterexample: an invocation of `getEmployee` whose ownership
check fails (Employee `E1` reading employee `E2`) aborts with an
authorization error whose message does not name the `read` action, so the
denial does not name both the action and the entity as claimed.  The store
is returned unchanged and holds no audit row. -/
theorem getEmployee_ownership_denial_omits_action :
    getEmployee ctxEmpE1 ⟨some "E2", none, none, 10⟩ db3 =
      .error (.unauthorized ownershipDeniedMsg, db3) ∧
    strHas ownershipDeniedMsg (actionName Action.read) = false ∧
    db3.audit = [] := by
  refine ⟨by decide, by decide, rfl⟩

/-- Claim C1, amended: a tool invocation failing the role or ownership
authorization check aborts with an authorization error and performs no side
effect — the database, including the audit log, is exactly the one at entry.
The action-level denial names the action and the entity; the ownership-level
denial names only the entity record. -/
theorem authz_denial_no_side_effect (ctx : ToolContext) (db : DB) :
    (∀ input : UpdateEmployeeInput,
        checkPermission ctx.role Action.update Entity.employee = false →
        updateEmployee ctx input db =
          .error (.unauthorized (unauthorizedMsg ctx.role Action.update Entity.employee), db)) ∧
    (∀ input : UpdateEmployeeInput,
        checkPermission ctx.role Action.update Entity.employee = true →
        canAccessEmployee ctx.role input.employeeId ctx.userId = false →
        updateEmployee ctx input db = .error (.unauthorized ownershipDeniedMsg, db)) ∧
    (∀ (input : GetEmployeeInput) (eid : String) (emp : Employee),
        checkPermission ctx.role Action.read Entity.employee = true →
        input.employeeId = some eid → eid ≠ "" →
        findEmployee db eid = some emp →
        canAccessEmployee ctx.role emp.id ctx.userId = false →
        getEmployee ctx input db = .error (.unauthorized ownershipDeniedMsg, db)) ∧
    (∀ (a : Action) (e : Entity),
        strHas (unauthorizedMsg ctx.role a e) (actionName a) = true ∧
        strHas (unauthorizedMsg ctx.role a e) (entityName e) = true) ∧
    (∀ employeeId : String,
        checkPermission ctx.role Action.update Entity.employee = false →
        archiveEmployee ctx employeeId db =
          .error (.unauthorized (unauthorizedMsg ctx.role Action.update Entity.employee), db)) ∧
    (∀ input : TerminateContractInput,
        checkPermission ctx.role Action.update Entity.contract = false →
        terminateContract ctx input db =
          .error (.unauthorized (unauthorizedMsg ctx.role Action.update Entity.contract), db)) ∧
    (∀ input : RecordAttendanceInput,
        checkPermission ctx.role Action.create Entity.attendance = false →
        recordAttendance ctx input db =
          .error (.unauthorized (unauthorizedMsg ctx.role Action.create Entity.attendance), db)) ∧
    (∀ input : CalcPayrollInput,
        checkPermission ctx.role Action.create Entity.payroll = false →
        calculatePayroll ctx input db =
          .error (.unauthorized (unauthorizedMsg ctx.role Action.create Entity.payroll), db)) ∧
    (∀ employeeId : String,
        checkPermission ctx.role Action.read Entity.benefit = false →
        getBenefits ctx employeeId db =
          .error (.unauthorized (unauthorizedMsg ctx.role Action.read Entity.benefit), db)) := by
  refine ⟨?_, ?_, ?_, ?_, ?_, ?_, ?_, ?_, ?_⟩
  · intro input hp
    simp [updateEmployee, hp]
  · intro input hp hown
    simp [updateEmployee, hp, hown]
  · intro input eid emp hp hid hne hfind hown
    simp [getEmployee, hp, hid, hne, hfind, hown]
  · intro a e
    exact ⟨unauthorizedMsg_names_action _ _ _, unauthorizedMsg_names_entity _ _ _⟩
  · intro eid hp
    simp [archiveEmployee, hp]
  · intro input hp
    simp [terminateContract, hp]
  · intro input hp
    simp [recordAttendance, hp]
  · intro input hp
    simp [calculatePayroll, hp]
  · intro eid hp
    simp [getBenefits, hp]

/-- Claim C1, witness: the end-to-end scenario — an Employee caller updating
the record of another employee is denied at the action-level check with a message
naming the action and the entity, the store is unchanged and it holds no
audit row for the attempt. -/
theorem authz_denial_no_side_effect_witness :
    checkPermission "Employee" Action.update Entity.employee = false ∧
    updateEmployee ctxEmpE1 ⟨"E2", none, none, none, some 9999, none⟩ db3 =
      .error (.unauthorized (unauthorizedMsg "Employee" Action.update Entity.employee), db3) ∧
    db3.audit = [] ∧
    strHas (unauthorizedMsg "Employee" Action.update Entity.employee)
      (actionName Action.update) = true ∧
    strHas (unauthorizedMsg "Employee" Action.update Entity.employee)
      (entityName Entity.employee) = true := by
  refine ⟨by decide, ?_, rfl, ?_, ?_⟩
  · exact (authz_denial_no_side_effect ctxEmpE1 db3).1
      ⟨"E2", none, none, none, some 9999, none⟩ (by decide)
  · exact ((authz_denial_no_side_effect ctxEmpE1 db3).2.2.2.1 Action.update Entity.employee).1
  · exact ((authz_denial_no_side_effect ctxEmpE1 db3).2.2.2.1 Action.update Entity.employee).2

/-- Claim C2: for every single-record update tool — `updateEmployee`,
`archiveEmployee`, `reactivateEmployee`, `terminateContract` — a caller
failing the ownership predicate on the target record gets an error and the
database is exactly the one at entry (no write). -/
theorem ownership_failure_blocks_single_record_updates (ctx : ToolContext) (db : DB) :
    (∀ input : UpdateEmployeeInput,
        canAccessEmployee ctx.role input.employeeId ctx.userId = false →
        ∃ err, updateEmployee ctx input db = .error (err, db)) ∧
    (∀ employeeId : String,
        canAccessEmployee ctx.role employeeId ctx.userId = false →
        ∃ err, archiveEmployee ctx employeeId db = .error (err, db)) ∧
    (∀ employeeId : String,
        canAccessEmployee ctx.role employeeId ctx.userId = false →
        ∃ err, reactivateEmployee ctx employeeId db = .error (err, db)) ∧
    (∀ (input : TerminateContractInput) (c : Contract),
        c ∈ db.contracts → c.id = input.contractId →
        canAccessEmployee ctx.role c.employeeId ctx.userId = false →
        ∃ err, terminateContract ctx input db = .error (err, db)) := by
  refine ⟨?_, ?_, ?_, ?_⟩
  · intro input h
    by_cases hp : checkPermission ctx.role Action.update Entity.employee = true
    · exact ⟨.unauthorized ownershipDeniedMsg, by simp [updateEmployee, hp, h]⟩
    · rw [Bool.not_eq_true] at hp
      exact ⟨.unauthorized (unauthorizedMsg ctx.role Action.update Entity.employee),
        by simp [updateEmployee, hp]⟩
  · intro eid h
    have hp := (noOwnership_noUpdate ctx.role eid ctx.userId h).1
    exact ⟨.unauthorized (unauthorizedMsg ctx.role Action.update Entity.employee),
      by simp [archiveEmployee, hp]⟩
  · intro eid h
    have hp := (noOwnership_noUpdate ctx.role eid ctx.userId h).1
    exact ⟨.unauthorized (unauthorizedMsg ctx.role Action.update Entity.employee),
      by simp [reactivateEmployee, hp]⟩
  · intro input c _hc _hid h
    have hp := (noOwnership_noUpdate ctx.role c.employeeId ctx.userId h).2
    exact ⟨.unauthorized (unauthorizedMsg ctx.role Action.update Entity.contract),
      by simp [terminateContract, hp]⟩

/-- Claim C2, witness: an Employee caller failing the ownership predicate on
employee `E2` and on the contract of `E2` is blocked with no write by each of the
four single-record update tools. -/
theorem ownership_failure_blocks_single_record_updates_witness :
    (∃ err, updateEmployee ctxEmpE1 ⟨"E2", none, none, none, none, none⟩ db3 =
      .error (err, db3)) ∧
    (∃ err, archiveEmployee ctxEmpE1 "E2" db3 = .error (err, db3)) ∧
    (∃ err, reactivateEmployee ctxEmpE1 "E2" db3 = .error (err, db3)) ∧
    (∃ err, terminateContract ctxEmpE1 ⟨"C2", 99⟩ db3 = .error (err, db3)) := by
  obtain ⟨h1, h2, h3, h4⟩ := ownership_failure_blocks_single_record_updates ctxEmpE1 db3
  exact ⟨h1 ⟨"E2", none, none, none, none, none⟩ (by decide), h2 "E2" (by decide),
    h3 "E2" (by decide), h4 ⟨"C2", 99⟩ con2 (by decide) (by decide) (by decide)⟩

/-- Claim C3: `getBenefits` and `getContract` return records for which the
ownership predicate fails — an Employee caller `E1` reading the benefits
and contracts receives them unfiltered, so multi-record read tools do not
post-filter through the ownership predicate. -/
theorem getBenefits_returns_inaccessible_records :
    getBenefits ctxEmpE1 "E2" db3 = .ok ([ben2], db3) ∧
    ben2.employeeId = "E2" ∧
    canAccessEmployee ctxEmpE1.role ben2.employeeId ctxEmpE1.userId = false ∧
    getContract ctxEmpE1 ⟨some "E2", none⟩ db3 = .ok (.many [con2], db3) ∧
    canAccessEmployee ctxEmpE1.role con2.employeeId ctxEmpE1.userId = false := by
  refine ⟨by decide, rfl, by decide, by decide, by decide⟩

/-- Claim C4: the execution context is one process-wide mutable slot, so in
the interleaving where turn A binds its context, turn B binds its own, and
only then a tool of turn A reads, the read observes the (actor, role)
binding of turn B, which differs from the binding of turn A. -/
theorem toolContext_leaks_across_interleaved_turns :
    getToolContext (setToolContext ⟨some "caller-B", "HR_Admin"⟩
        (setToolContext ⟨some "caller-A", "Employee"⟩ none)) =
      .ok ⟨some "caller-B", "HR_Admin"⟩ ∧
    (⟨some "caller-B", "HR_Admin"⟩ : ToolContext) ≠ ⟨some "caller-A", "Employee"⟩ :=
  ⟨rfl, by decide⟩

/-- Claim C5: finalize deduplication is idempotent — applied to a sequence
concatenated with itself it yields the same stored sequence (same length and
content) as applied to the sequence once. -/
theorem dedup_finalize_idempotent (xs : List Msg) :
    dedupKeepLast (xs ++ xs) = dedupKeepLast xs := by
  unfold dedupKeepLast
  rw [List.reverse_append, dedupLoop_eq, dedupLoop_eq, ffs_append]
  have hall : ∀ m ∈ xs.reverse, m.id ∈ collectIds xs.reverse [] := by
    intro m hm
    rw [mem_collectIds]
    exact Or.inr (List.mem_map_of_mem _ hm)
  rw [ffs_all_seen _ _ hall]
  simp

/-- Claim C6: the dedup loop keeps exactly the last occurrence in arrival
order of each id, dropping the earlier duplicates, and the result is a
sublist of the input, so the surviving messages keep their relative order. -/
theorem dedup_keeps_last_occurrence_in_order (xs : List Msg) :
    dedupKeepLast xs = keepLastSpec xs ∧ (dedupKeepLast xs).Sublist xs :=
  ⟨dedupKeepLast_eq_keepLastSpec xs, dedupKeepLast_sublist xs⟩

/-- Claim C7, counterexample: the id assigned to a message with an empty id
comes from a fresh random UUID draw, so two finalize runs over the same
input — modelled by two admissible id-source streams — assign different
identifiers; the assignment is not deterministic across runs. -/
theorem normalizeIds_not_deterministic :
    normalizeIds (fun _ => "run1-id") [⟨"", "assistant", "hello"⟩] 0 ≠
      normalizeIds (fun _ => "run2-id") [⟨"", "assistant", "hello"⟩] 0 := by
  decide

/-- Claim C7, amended: normalization preserves roles, contents, length and
every already-present non-empty id (those are reproduced identically on any
run), and — provided the id source never returns an empty string, as a UUID
source does — every message reaching persistence, also after dedup, has a
non-empty identifier.  Ids freshly assigned to empty-id messages are drawn
from the random source and are not deterministic across runs. -/
theorem normalizeIds_assigns_nonempty_ids (gen : Nat → String)
    (hgen : ∀ n, gen n ≠ "") (ms : List Msg) (k : Nat) :
    List.Forall₂
        (fun a b => b.role = a.role ∧ b.content = a.content ∧ b.id ≠ "" ∧
          (a.id ≠ "" → b = a))
        ms (normalizeIds gen ms k) ∧
    ∀ m ∈ dedupKeepLast (normalizeIds gen ms k), m.id ≠ "" := by
  constructor
  · induction ms generalizing k with
    | nil => exact List.Forall₂.nil
    | cons x rest ih =>
      by_cases h : x.id = ""
      · simp only [normalizeIds, if_pos h]
        exact List.Forall₂.cons ⟨rfl, rfl, hgen k, fun hne => absurd h hne⟩ (ih (k + 1))
      · simp only [normalizeIds, if_neg h]
        exact List.Forall₂.cons ⟨rfl, rfl, h, fun _ => rfl⟩ (ih k)
  · intro m hm
    exact normalizeIds_nonempty gen hgen ms k m ((dedupKeepLast_sublist _).subset hm)

/-- Claim C7, witness: a two-message batch, one message without id and one
with id `m1`, run through normalization with a concrete non-empty id
source. -/
theorem normalizeIds_assigns_nonempty_ids_witness :
    List.Forall₂
        (fun a b => b.role = a.role ∧ b.content = a.content ∧ b.id ≠ "" ∧
          (a.id ≠ "" → b = a))
        [⟨"", "assistant", "hello"⟩, ⟨"m1", "user", "hi"⟩]
        (normalizeIds (fun _ => "gen-0")
          [⟨"", "assistant", "hello"⟩, ⟨"m1", "user", "hi"⟩] 0) ∧
    ∀ m ∈ dedupKeepLast (normalizeIds (fun _ => "gen-0")
        [⟨"", "assistant", "hello"⟩, ⟨"m1", "user", "hi"⟩] 0), m.id ≠ "" :=
  normalizeIds_assigns_nonempty_ids (fun _ => "gen-0")
    (fun _ => (by decide : ("gen-0" : String) ≠ ""))
    [⟨"", "assistant", "hello"⟩, ⟨"m1", "user", "hi"⟩] 0

/-- Claim C8: a POST turn whose supplied conversation id fails to load does
not fail — a new conversation is created, the turn is flagged new, and the
id surfaced in the response header is the freshly created one, different
from the submitted id. -/
theorem stale_chatId_degrades_to_new_chat (st : ChatStore) (cid : String)
    (hload : loadChat cid st = .error ())
    (hfresh : (createChat st).1 ≠ cid) :
    (resolveChat (some cid) st).isNewChat = true ∧
    (resolveChat (some cid) st).currentChatId ≠ cid ∧
    (resolveChat (some cid) st).currentChatId = (createChat st).1 ∧
    chatIdHeader (resolveChat (some cid) st) =
      some (resolveChat (some cid) st).currentChatId := by
  have h : resolveChat (some cid) st = ⟨(createChat st).1, true, (createChat st).2⟩ := by
    simp only [resolveChat]
    rw [hload]
  rw [h]
  exact ⟨rfl, hfresh, rfl, rfl⟩

/-- Claim C8, witness: submitting the unknown id `stale` against an empty
store creates `chat-0`, flags the turn new and surfaces `chat-0` in the
header. -/
theorem stale_chatId_degrades_to_new_chat_witness :
    loadChat "stale" ⟨[], 0⟩ = .error () ∧
    (resolveChat (some "stale") ⟨[], 0⟩).isNewChat = true ∧
    (resolveChat (some "stale") ⟨[], 0⟩).currentChatId ≠ "stale" ∧
    chatIdHeader (resolveChat (some "stale") ⟨[], 0⟩) =
      some (resolveChat (some "stale") ⟨[], 0⟩).currentChatId := by
  obtain ⟨h1, h2, _, h4⟩ :=
    stale_chatId_degrades_to_new_chat ⟨[], 0⟩ "stale" (by decide) (by decide)
  exact ⟨by decide, h1, h2, h4⟩

/-- Claim C9: past its checks, `calculatePayroll` produces a payroll row with
base the employee salary, overtime pay the summed overtime hours of the period
times (base/160) times 1.5, and net salary base plus overtime pay minus the
summed numeric deduction amounts, an unparseable deductions payload
contributing zero. -/
theorem calculatePayroll_formula (ctx : ToolContext) (input : CalcPayrollInput)
    (db : DB) (emp : Employee)
    (hp : checkPermission ctx.role Action.create Entity.payroll = true)
    (hfind : findEmployee db input.employeeId = some emp) :
    ∃ p db2, calculatePayroll ctx input db = .ok (p, db2) ∧
      p.baseSalary = emp.salary ∧
      p.overtimePay =
        ((db.attendance.filter (payrollRangeFilter input)).map
            (fun r => r.overtimeHours.getD 0)).sum * (emp.salary / 160) * (3 / 2) ∧
      p.netSalary = emp.salary + p.overtimePay - totalDeductionsOf input.deductions ∧
      (deductionsParseFailed input.deductions = true →
        totalDeductionsOf input.deductions = 0) := by
  refine ⟨payrollResult input db emp, _, calculatePayroll_eval ctx input db emp hp hfind,
    rfl, payrollResult_overtimePay input db emp, rfl, ?_⟩
  intro hbad
  cases hdi : input.deductions with
  | none => rfl
  | some d =>
    rw [hdi] at hbad
    cases hp2 : d.parsed with
    | none => simp [totalDeductionsOf, hdi, hp2]
    | some entries =>
      rw [deductionsParseFailed, hp2] at hbad
      simp at hbad

/-- Claim C9, witness: salary 1600, attendance rows of the period summing to
10 overtime hours (rows out of period or of another employee excluded) give
overtime pay 150; with deductions `tax: 50` the net is 1700, with an
unparseable payload the net is 1750. -/
theorem calculatePayroll_formula_witness :
    (∃ p db2, calculatePayroll ctxAdmin calcInput9 db9 = .ok (p, db2) ∧
      p.overtimePay = 150 ∧ p.netSalary = 1700) ∧
    (∃ p db2, calculatePayroll ctxAdmin calcInputBad db9 = .ok (p, db2) ∧
      p.overtimePay = 150 ∧ p.netSalary = 1750) := by
  have hfilt9 : db9.attendance.filter (payrollRangeFilter calcInput9) =
      [⟨"A1", "E1", 5, none, none, none, some 4, "None", none⟩,
       ⟨"A2", "E1", 10, none, none, none, some 6, "None", none⟩] := rfl
  have hfiltBad : db9.attendance.filter (payrollRangeFilter calcInputBad) =
      [⟨"A1", "E1", 5, none, none, none, some 4, "None", none⟩,
       ⟨"A2", "E1", 10, none, none, none, some 6, "None", none⟩] := rfl
  constructor
  · obtain ⟨p, db2, heq, _, hot, hnet, _⟩ :=
      calculatePayroll_formula ctxAdmin calcInput9 db9 empPay (by decide) (by decide)
    rw [hfilt9] at hot
    refine ⟨p, db2, heq, ?_, ?_⟩
    · rw [hot]; norm_num [empPay]
    · rw [hnet, hot]
      norm_num [empPay, calcInput9, totalDeductionsOf, numOrZero]
  · obtain ⟨p, db2, heq, _, hot, hnet, _⟩ :=
      calculatePayroll_formula ctxAdmin calcInputBad db9 empPay (by decide) (by decide)
    rw [hfiltBad] at hot
    refine ⟨p, db2, heq, ?_, ?_⟩
    · rw [hot]; norm_num [empPay]
    · rw [hnet, hot]
      norm_num [empPay, calcInputBad, totalDeductionsOf, numOrZero]

/-- Claim C10: any caller holding the `create` action on `attendance`
(the Employee role does) gets `recordAttendance` and `requestLeave` through
to the persistence write for any target employee — the ownership predicate
is never consulted, so an ownership mismatch never produces an error. -/
theorem attendance_create_skips_ownership (ctx : ToolContext) (db : DB) :
    (∀ input : RecordAttendanceInput,
        checkPermission ctx.role Action.create Entity.attendance = true →
        ∃ r db2, recordAttendance ctx input db = .ok (r, db2) ∧
          r.employeeId = input.employeeId ∧ r ∈ db2.attendance) ∧
    (∀ input : RequestLeaveInput,
        checkPermission ctx.role Action.create Entity.attendance = true →
        ∃ r db2, requestLeave ctx input db = .ok (r, db2) ∧
          r.employeeId = input.employeeId ∧ r ∈ db2.attendance) ∧
    checkPermission "Employee" Action.create Entity.attendance = true := by
  refine ⟨?_, ?_, by decide⟩
  · intro input hp
    refine ⟨attendanceRow input db,
      logAction (addAttendance (bumpId db) (attendanceRow input db))
        "AttendanceRecord" (attendanceRow input db).id "Create" ctx.userId (some "input"),
      ?_, rfl, ?_⟩
    · unfold recordAttendance
      rw [if_pos hp]
    · simp [logAction, addAttendance, bumpId]
  · intro input hp
    refine ⟨leaveRow input db,
      logAction (addAttendance (bumpId db) (leaveRow input db))
        "AttendanceRecord" (leaveRow input db).id "Create" ctx.userId (some "input"),
      ?_, rfl, ?_⟩
    · unfold requestLeave
      rw [if_pos hp]
    · simp [logAction, addAttendance, bumpId]

/-- Claim C10, witness: the Employee caller `E1` records attendance and
requests leave for the other employee `E2` — the ownership predicate fails
for that pair, yet both tools succeed and write the row. -/
theorem attendance_create_skips_ownership_witness :
    canAccessEmployee "Employee" "E2" (some "E1") = false ∧
    (∃ r db2, recordAttendance ctxEmpE1 ⟨"E2", 3, none, none, none, some 2, none⟩ db3 =
      .ok (r, db2) ∧
      r.employeeId = (⟨"E2", 3, none, none, none, some 2, none⟩ :
        RecordAttendanceInput).employeeId ∧ r ∈ db2.attendance) ∧
    (∃ r db2, requestLeave ctxEmpE1 ⟨"E2", 3, "Sick"⟩ db3 = .ok (r, db2) ∧
      r.employeeId = (⟨"E2", 3, "Sick"⟩ : RequestLeaveInput).employeeId ∧
      r ∈ db2.attendance) := by
  obtain ⟨hrec, hleave, _⟩ := attendance_create_skips_ownership ctxEmpE1 db3
  exact ⟨by decide, hrec ⟨"E2", 3, none, none, none, some 2, none⟩ (by decide),
    hleave ⟨"E2", 3, "Sick"⟩ (by decide)⟩

end LLMHR
